import Mathlib

/-!
Verification of the sentiment-classification notebook pipeline
(`Adding_AI_to_your_app.ipynb`): loader, shuffler/splitter, TF-IDF
vectoriser, classifier fit, and accuracy evaluator.

The filesystem is modelled as data passed to the loader: a directory is a
list of `(filename, contents)` pairs in `listdir` enumeration order.  For
error-propagation claims a second loader works over fallible reads
(`Option`-valued `listdir` and file reads), mirroring Python exceptions.
Library calls (`sklearn.utils.shuffle`, `train_test_split`,
`TfidfVectorizer`, `LogisticRegression`, `accuracy_score`) are not part of
the repository source; their behaviour is modelled from the spec's
component contracts, with doc comments marking each such model.
-/

/-- A labelled example, as built by `load_data`:
`{"text": text, "label": label}`. -/
structure Record where
  text : String
  label : Nat
deriving DecidableEq

/-- Python's `str.endswith(suffix)`, modelled on the character sequence of
the string (the builtin `String.endsWith` is byte-position based and not
kernel-reducible, so the suffix test is stated over `String.data`). -/
def endswith (s suffix : String) : Bool := suffix.data.isSuffixOf s.data

/-- The loader of the notebook (cell `load_data`): a directory is given as
the `listdir` enumeration, each entry a `(filename, contents)` pair.  The
loader keeps the filenames ending in `".txt"`, reads each file whole and
emits one record per file carrying the given label, in enumeration order:
`files = [... for filename in listdir(filepath) if filename.endswith(".txt")]`
followed by a loop appending `{"text": f.read(), "label": label}`. -/
def load_data (dir : List (String × String)) (label : Nat) : List Record :=
  (dir.filter (fun e => endswith e.1 ".txt")).map
    (fun e => { text := e.2, label := label })

/-- Reading phase of the loader over fallible file reads: Python's `open`
and `read` raise on an unreadable file and `load_data` has no handler, so a
single failing read aborts the whole loop with no partial list.  `none`
models the propagated exception. -/
def readAll (read : String → Option String) (label : Nat) :
    List String → Option (List Record)
  | [] => some []
  | n :: ns =>
    match read n with
    | none => none
    | some t =>
      match readAll read label ns with
      | none => none
      | some rs => some ({ text := t, label := label } :: rs)

/-- The loader over a fallible filesystem: `listdir` on a missing directory
raises (modelled by `none`), and any unreadable `".txt"` file aborts the
read loop.  No exception is caught anywhere in the notebook. -/
def load_dataE (listdir : Option (List String)) (read : String → Option String)
    (label : Nat) : Option (List Record) :=
  match listdir with
  | none => none
  | some names => readAll read label (names.filter (fun n => endswith n ".txt"))

theorem readAll_none_of_mem {read : String → Option String} {label : Nat}
    {n : String} : ∀ {ns : List String}, n ∈ ns → read n = none →
    readAll read label ns = none := by
  intro ns hmem hnone
  induction ns with
  | nil => cases hmem
  | cons m ms ih =>
    cases hmem with
    | head => simp [readAll, hnone]
    | tail _ htail =>
      unfold readAll
      cases hr : read m with
      | none => rfl
      | some t => rw [ih htail]

theorem readAll_length {read : String → Option String} {label : Nat} :
    ∀ {ns : List String} {rs : List Record},
    readAll read label ns = some rs → rs.length = ns.length := by
  intro ns
  induction ns with
  | nil => intro rs h; simp [readAll] at h; simp [← h]
  | cons m ms ih =>
    intro rs h
    unfold readAll at h
    cases hr : read m with
    | none => rw [hr] at h; cases h
    | some t =>
      rw [hr] at h
      cases hrec : readAll read label ms with
      | none => rw [hrec] at h; cases h
      | some rs2 =>
        rw [hrec] at h
        cases h
        simp [ih hrec]

/-- Claim C3: every record loaded with label `1` (the positive directory)
has `label = 1`, every record loaded with label `0` (the negative
directory) has `label = 0`, and every record of the combined dataset
`pos ++ neg` carries a binary label. -/
theorem loader_labels_binary (posDir negDir : List (String × String)) :
    (∀ r ∈ load_data posDir 1, r.label = 1) ∧
    (∀ r ∈ load_data negDir 0, r.label = 0) ∧
    (∀ r ∈ load_data posDir 1 ++ load_data negDir 0,
      r.label = 0 ∨ r.label = 1) := by
  have key : ∀ (d : List (String × String)) (lab : Nat),
      ∀ r ∈ load_data d lab, r.label = lab := by
    intro d lab r hr
    unfold load_data at hr
    obtain ⟨e, _, he⟩ := List.mem_map.mp hr
    simp [← he]
  refine ⟨key posDir 1, key negDir 0, ?_⟩
  intro r hr
  rcases List.mem_append.mp hr with h | h
  · exact Or.inr (key posDir 1 r h)
  · exact Or.inl (key negDir 0 r h)

theorem loader_labels_binary_witness :
    (∀ r ∈ load_data [("p.txt", "good film")] 1, r.label = 1) ∧
    (∀ r ∈ load_data [("n.txt", "bad film")] 0, r.label = 0) ∧
    (∀ r ∈ load_data [("p.txt", "good film")] 1 ++
        load_data [("n.txt", "bad film")] 0, r.label = 0 ∨ r.label = 1) :=
  loader_labels_binary [("p.txt", "good film")] [("n.txt", "bad film")]

/-- Claim C4: the loader returns exactly one record per `".txt"` file in
the directory: the record count equals the count of text-suffixed entries,
every text-suffixed entry contributes its record, and every record comes
from some text-suffixed entry; entries without the suffix produce
nothing. -/
theorem loader_one_record_per_txt_file (dir : List (String × String))
    (lab : Nat) :
    (load_data dir lab).length = dir.countP (fun e => endswith e.1 ".txt") ∧
    (∀ e ∈ dir, endswith e.1 ".txt" = true →
      ({ text := e.2, label := lab } : Record) ∈ load_data dir lab) ∧
    (∀ r ∈ load_data dir lab, ∃ e ∈ dir,
      endswith e.1 ".txt" = true ∧ r.text = e.2 ∧ r.label = lab) := by
  refine ⟨?_, ?_, ?_⟩
  · unfold load_data
    rw [List.length_map, ← List.countP_eq_length_filter]
  · intro e hmem hsuf
    unfold load_data
    exact List.mem_map.mpr ⟨e, List.mem_filter.mpr ⟨hmem, hsuf⟩, rfl⟩
  · intro r hr
    unfold load_data at hr
    obtain ⟨e, hef, he⟩ := List.mem_map.mp hr
    obtain ⟨hmem, hsuf⟩ := List.mem_filter.mp hef
    exact ⟨e, hmem, hsuf, by simp [← he], by simp [← he]⟩

theorem loader_one_record_per_txt_file_witness :
    (load_data [("a.txt", "hi"), ("b.md", "no")] 5).length =
      List.countP (fun e => endswith e.1 ".txt")
        [("a.txt", "hi"), ("b.md", "no")] ∧
    (({ text := "hi", label := 5 } : Record) ∈
      load_data [("a.txt", "hi"), ("b.md", "no")] 5) := by
  have h := loader_one_record_per_txt_file [("a.txt", "hi"), ("b.md", "no")] 5
  exact ⟨h.1, h.2.1 ("a.txt", "hi") (by decide) (by decide)⟩

/-- Linear congruential pseudo-random step.  Modelled from the spec: the
splitter's seed-driven randomness ("the partition is reproducible given
the same seed"); the exact generator of the library is irrelevant to the
claims, only that it is a deterministic function of the seed. -/
def lcgNext (s : Nat) : Nat := (1103515245 * s + 12345) % 2147483648

/-- One seed-driven draw of a permutation, Fisher-Yates style: repeatedly
pick the `s % length`-th remaining element.  Modelled from the spec: the
shuffling that `train_test_split(random_state)` (and a seeded
`sklearn.utils.shuffle`) performs internally. -/
def drawPerm : Nat → Nat → List Nat → List Nat
  | _, 0, _ => []
  | s, fuel + 1, l =>
    if l.length = 0 then []
    else
      let v := l.getD (s % l.length) 0
      v :: drawPerm (lcgNext s) fuel (l.erase v)

theorem drawPerm_perm : ∀ (fuel : Nat) (s : Nat) (l : List Nat),
    l.length = fuel → (drawPerm s fuel l).Perm l := by
  intro fuel
  induction fuel with
  | zero =>
    intro s l hl
    rw [List.length_eq_zero] at hl
    simp [drawPerm, hl]
  | succ n ih =>
    intro s l hl
    have hne : l.length ≠ 0 := by omega
    have hidx : s % l.length < l.length := Nat.mod_lt _ (by omega)
    have hv : l.getD (s % l.length) 0 ∈ l := by
      rw [List.getD_eq_getElem l 0 hidx]
      exact List.getElem_mem _
    unfold drawPerm
    simp only [hne, if_false]
    have herase : (l.erase (l.getD (s % l.length) 0)).length = n := by
      rw [List.length_erase_of_mem hv, hl]; omega
    exact ((ih _ _ herase).cons _).trans (List.perm_cons_erase hv).symm

/-- Number of test samples for `test_size=0.3` on `n` records: sklearn
takes `ceil(0.3 * n)`, i.e. `(3 * n + 9) / 10` in natural division.
Modelled from the spec: "split ratio ≈ configured fraction" (30%). -/
def nTest (n : Nat) : Nat := (3 * n + 9) / 10

theorem nTest_le (n : Nat) : nTest n ≤ n := by
  unfold nTest; omega

/-- Index partition drawn by the splitter for a dataset of `n` records:
a seed-determined permutation of `range n`, whose first `nTest n` entries
index the test side and the rest the train side (train indices first).
Modelled from the spec: the splitter "partitions into train/test subsets
by a fixed ratio", reproducibly given the seed. -/
def splitIdx (seed n : Nat) : List Nat × List Nat :=
  let σ := drawPerm seed n (List.range n)
  (σ.drop (nTest n), σ.take (nTest n))

/-- `train_test_split(X, y, test_size=0.3, random_state=seed)` of the
notebook (cell 10): returns `(X_train, X_test, y_train, y_test)`, the
train/test index sets applied in parallel to the texts and the labels.
Modelled from the spec's splitter contract (the library body is not in the
repository). -/
def train_test_split (X : List String) (y : List Nat) (seed : Nat) :
    List String × List String × List Nat × List Nat :=
  let idx := splitIdx seed X.length
  (idx.1.map (fun i => X.getD i ""), idx.2.map (fun i => X.getD i ""),
   idx.1.map (fun i => y.getD i 0), idx.2.map (fun i => y.getD i 0))

theorem map_getD_range {α : Type} (l : List α) (d : α) :
    (List.range l.length).map (fun i => l.getD i d) = l := by
  apply List.ext_getElem
  · simp
  · intro i h1 h2
    simp only [List.getElem_map, List.getElem_range]
    exact List.getD_eq_getElem l d h2

theorem perm_map_getD_range {α : Type} {σ : List Nat} {l : List α}
    (h : σ.Perm (List.range l.length)) (d : α) :
    (σ.map (fun i => l.getD i d)).Perm l := by
  have := h.map (fun i => l.getD i d)
  rw [map_getD_range] at this
  exact this

theorem splitIdx_perm (seed n : Nat) :
    ((splitIdx seed n).1 ++ (splitIdx seed n).2).Perm (List.range n) := by
  unfold splitIdx
  have hσ : (drawPerm seed n (List.range n)).Perm (List.range n) :=
    drawPerm_perm n seed (List.range n) (List.length_range n)
  have h1 : ((drawPerm seed n (List.range n)).drop (nTest n) ++
      (drawPerm seed n (List.range n)).take (nTest n)).Perm
      (drawPerm seed n (List.range n)) := by
    have := @List.perm_append_comm Nat
      ((drawPerm seed n (List.range n)).drop (nTest n))
      ((drawPerm seed n (List.range n)).take (nTest n))
    rw [List.take_append_drop] at this
    exact this
  exact h1.trans hσ

/-- Claim C2: for every pair of parallel text/label sequences the splitter
returns four sequences with `|train| + |test| = |full dataset|` on both the
text and the label side, disjoint train/test index sets, test size equal to
the configured 30% fraction (rounded up), and each side drawn from the
input so that train and test together are a permutation of the full
dataset — every record lands on exactly one side. -/
theorem split_partition_invariants (X : List String) (y : List Nat)
    (seed : Nat) (h : y.length = X.length) :
    (train_test_split X y seed).1.length +
      (train_test_split X y seed).2.1.length = X.length ∧
    (train_test_split X y seed).2.2.1.length +
      (train_test_split X y seed).2.2.2.length = y.length ∧
    (train_test_split X y seed).2.1.length = nTest X.length ∧
    List.Disjoint (splitIdx seed X.length).1 (splitIdx seed X.length).2 ∧
    ((train_test_split X y seed).1 ++ (train_test_split X y seed).2.1).Perm
      X ∧
    ((train_test_split X y seed).2.2.1 ++
      (train_test_split X y seed).2.2.2).Perm y := by
  have hσ : (drawPerm seed X.length (List.range X.length)).Perm
      (List.range X.length) :=
    drawPerm_perm X.length seed _ (List.length_range _)
  have hlen : (drawPerm seed X.length (List.range X.length)).length =
      X.length := by
    rw [hσ.length_eq, List.length_range]
  have hk := nTest_le X.length
  have hperm := splitIdx_perm seed X.length
  refine ⟨?_, ?_, ?_, ?_, ?_, ?_⟩
  · simp only [train_test_split, splitIdx, List.length_map, List.length_drop,
      List.length_take, hlen]
    omega
  · simp only [train_test_split, splitIdx, List.length_map, List.length_drop,
      List.length_take, hlen, h]
    omega
  · simp only [train_test_split, splitIdx, List.length_map, List.length_take,
      hlen]
    omega
  · have hnd : (drawPerm seed X.length (List.range X.length)).Nodup :=
      hσ.nodup_iff.mpr (List.nodup_range X.length)
    simp only [splitIdx]
    exact List.disjoint_symm
      (List.disjoint_take_drop hnd (Nat.le_refl (nTest X.length)))
  · have : (train_test_split X y seed).1 ++ (train_test_split X y seed).2.1 =
        ((splitIdx seed X.length).1 ++ (splitIdx seed X.length).2).map
          (fun i => X.getD i "") := by
      simp [train_test_split]
    rw [this]
    exact perm_map_getD_range hperm ""
  · have : (train_test_split X y seed).2.2.1 ++
        (train_test_split X y seed).2.2.2 =
        ((splitIdx seed X.length).1 ++ (splitIdx seed X.length).2).map
          (fun i => y.getD i 0) := by
      simp [train_test_split]
    rw [this]
    refine perm_map_getD_range ?_ 0
    rw [h]
    exact hperm

theorem split_partition_invariants_witness :
    (train_test_split ["w", "x", "y", "z"] [1, 1, 0, 0] 42).1.length +
      (train_test_split ["w", "x", "y", "z"] [1, 1, 0, 0] 42).2.1.length =
      (["w", "x", "y", "z"] : List String).length ∧
    (train_test_split ["w", "x", "y", "z"] [1, 1, 0, 0] 42).2.2.1.length +
      (train_test_split ["w", "x", "y", "z"] [1, 1, 0, 0] 42).2.2.2.length =
      ([1, 1, 0, 0] : List Nat).length ∧
    (train_test_split ["w", "x", "y", "z"] [1, 1, 0, 0] 42).2.1.length =
      nTest (["w", "x", "y", "z"] : List String).length ∧
    List.Disjoint (splitIdx 42 (["w", "x", "y", "z"] : List String).length).1
      (splitIdx 42 (["w", "x", "y", "z"] : List String).length).2 ∧
    ((train_test_split ["w", "x", "y", "z"] [1, 1, 0, 0] 42).1 ++
      (train_test_split ["w", "x", "y", "z"] [1, 1, 0, 0] 42).2.1).Perm
      ["w", "x", "y", "z"] ∧
    ((train_test_split ["w", "x", "y", "z"] [1, 1, 0, 0] 42).2.2.1 ++
      (train_test_split ["w", "x", "y", "z"] [1, 1, 0, 0] 42).2.2.2).Perm
      [1, 1, 0, 0] :=
  split_partition_invariants ["w", "x", "y", "z"] [1, 1, 0, 0] 42 rfl

/-- Number of positions where predicted and actual labels agree, pairing
the two sequences positionally. -/
def matchCount (y_actual y_pred : List Nat) : Nat :=
  (y_actual.zip y_pred).countP (fun p => p.1 == p.2)

/-- Modelled from the spec: `sklearn.metrics.accuracy_score` (the library
body is not in the repository; the notebook leaves the calls as an
exercise): "given parallel sequences of predicted and actual labels,
computes accuracy = (count of matches) / (total count)". -/
def accuracy_score (y_actual y_pred : List Nat) : ℚ :=
  (matchCount y_actual y_pred : ℚ) / (y_actual.length : ℚ)

theorem matchCount_eq_range_countP :
    ∀ (ya yp : List Nat), ya.length = yp.length →
    matchCount ya yp =
      (List.range ya.length).countP (fun i => ya.getD i 0 == yp.getD i 0) := by
  intro ya
  induction ya with
  | nil => intro yp h; cases yp with
    | nil => rfl
    | cons b bs => cases h
  | cons a as ih =>
    intro yp h
    cases yp with
    | nil => cases h
    | cons b bs =>
      have hlen : as.length = bs.length := by
        simpa using h
      simp only [matchCount, List.zip_cons_cons, List.countP_cons,
        List.length_cons, List.range_succ_eq_map, List.countP_map]
      have hrec := ih bs hlen
      simp only [matchCount] at hrec
      rw [hrec]
      simp [Function.comp_def]

/-- Claim C5: the evaluator's accuracy is the fraction of index positions
where predicted equals actual, it always lies in `[0, 1]`, and on the
spec's example `accuracy_score [1,0,1] [1,1,1] = 2/3`. -/
theorem accuracy_matches_over_total (ya yp : List Nat)
    (h : ya.length = yp.length) :
    accuracy_score ya yp =
      ((List.range ya.length).countP
        (fun i => ya.getD i 0 == yp.getD i 0) : ℚ) / (ya.length : ℚ) ∧
    0 ≤ accuracy_score ya yp ∧ accuracy_score ya yp ≤ 1 ∧
    accuracy_score [1, 0, 1] [1, 1, 1] = 2 / 3 := by
  have hm : matchCount ya yp ≤ ya.length := by
    refine le_trans (List.countP_le_length _) ?_
    rw [List.length_zip]
    omega
  refine ⟨?_, ?_, ?_, ?_⟩
  · unfold accuracy_score
    rw [matchCount_eq_range_countP ya yp h]
  · unfold accuracy_score
    positivity
  · unfold accuracy_score
    rcases Nat.eq_zero_or_pos ya.length with h0 | h0
    · have hz : matchCount ya yp = 0 := by omega
      simp [hz, h0]
    · rw [div_le_one (by exact_mod_cast h0)]
      exact_mod_cast hm
  · have h2 : matchCount [1, 0, 1] [1, 1, 1] = 2 := by decide
    unfold accuracy_score
    rw [h2]
    norm_num

theorem accuracy_matches_over_total_witness :
    accuracy_score [1, 0, 1] [1, 1, 1] =
      ((List.range ([1, 0, 1] : List Nat).length).countP
        (fun i => ([1, 0, 1] : List Nat).getD i 0 ==
          ([1, 1, 1] : List Nat).getD i 0) : ℚ) /
        (([1, 0, 1] : List Nat).length : ℚ) ∧
    0 ≤ accuracy_score [1, 0, 1] [1, 1, 1] ∧
    accuracy_score [1, 0, 1] [1, 1, 1] ≤ 1 ∧
    accuracy_score [1, 0, 1] [1, 1, 1] = 2 / 3 :=
  accuracy_matches_over_total [1, 0, 1] [1, 1, 1] rfl

/-- Character-level whitespace splitter (accumulator holds the current
word reversed).  Used to model the library tokenizer, since the builtin
byte-position string functions do not kernel-reduce. -/
def splitChars : List Char → List Char → List String
  | [], acc => [String.mk acc.reverse]
  | c :: cs, acc =>
    if c = ' ' then String.mk acc.reverse :: splitChars cs []
    else splitChars cs (c :: acc)

/-- Modelled from the spec: the vectoriser's tokenization of a text into
terms (the `TfidfVectorizer` body is library code absent from the
repository); whitespace-separated words, empty fragments dropped. -/
def tokenize (t : String) : List String :=
  (splitChars t.data []).filter (fun w => w != "")

/-- Modelled from the spec: the "static stop-word list" the vectoriser
excludes (`stop_words="english"` in cell 12); a fixed representative
English list. -/
def stop_words : List String :=
  ["a", "an", "and", "are", "as", "at", "be", "but", "by", "for", "if",
   "in", "into", "is", "it", "no", "not", "of", "on", "or", "such",
   "that", "the", "their", "then", "there", "these", "they", "this",
   "to", "was", "will", "with"]

/-- Result of fitting the vectoriser: a fixed vocabulary and an
inverse-document-frequency weight for each term. -/
structure FittedVectoriser where
  vocab : List String
  idf : String → ℚ

/-- The training corpus as token lists, one per text. -/
def documents (texts : List String) : List (List String) :=
  texts.map tokenize

/-- Modelled from the spec: the fitted vocabulary — every term occurring
in the training texts, stop words excluded, first occurrences in order. -/
def buildVocab (texts : List String) : List String :=
  ((documents texts).flatten.filter (fun w => !stop_words.contains w)).dedup

/-- Number of training documents containing the term. -/
def docFreq (texts : List String) (w : String) : Nat :=
  (documents texts).countP (fun d => d.contains w)

/-- Modelled from the spec: the vectoriser's fit contract — "given
training texts, builds a fixed vocabulary and inverse-document-frequency
weighting, excluding a static stop-word list".  The idf weight is the
rational `(1 + #docs) / (1 + df w)`; the claims depend only on the weight
being a fixed function of the training texts, not on the library's exact
logarithmic formula. -/
def fitVectoriser (texts : List String) : FittedVectoriser :=
  { vocab := buildVocab texts,
    idf := fun w => ((1 + texts.length : ℚ)) / ((1 + docFreq texts w : ℚ)) }

/-- Transform at token level: one entry per vocabulary term, term
frequency times idf weight.  Terms outside the vocabulary contribute to no
entry. -/
def transformTokens (f : FittedVectoriser) (tokens : List String) : List ℚ :=
  f.vocab.map (fun w => (tokens.count w : ℚ) * f.idf w)

/-- Modelled from the spec: the vectoriser's transform contract — "given
any text, produces a fixed-length sparse numeric vector over the fitted
vocabulary; out-of-vocabulary terms are ignored". -/
def transform (f : FittedVectoriser) (t : String) : List ℚ :=
  transformTokens f (tokenize t)

/-- The vectoriser object of cell 12: mutable state that is `none` until
`fit_transform` writes the fitted vocabulary/idf. -/
structure Vectoriser where
  fitted : Option FittedVectoriser

/-- `TfidfVectorizer(stop_words="english")` — a fresh, unfitted
vectoriser. -/
def TfidfVectorizer : Vectoriser := ⟨none⟩

/-- `vectoriser.fit_transform(texts)` (cell 13): fits the vocabulary and
idf on the given texts, stores them in the object, and returns the
transformed texts. -/
def fit_transform (_v : Vectoriser) (texts : List String) :
    List (List ℚ) × Vectoriser :=
  let f := fitVectoriser texts
  (texts.map (transform f), ⟨some f⟩)

/-- `vectoriser.transform(texts)` (cells 18 and 22): reads the fitted
state; raises `NotFittedError` (modelled by `none`) when unfitted, and
never writes the state. -/
def transformState (vr : Vectoriser) (texts : List String) :
    Option (List (List ℚ)) × Vectoriser :=
  match vr.fitted with
  | none => (none, vr)
  | some f => (some (texts.map (transform f)), vr)

/-- The notebook's vectoriser call sequence: `fit_transform(X_train)`
(cell 13), `transform(X_test)` (cell 18), `transform([example_text])`
(cell 22), threading the vectoriser state through. -/
def vectoriserSession (X_train X_test : List String) (example_text : String) :
    List (List ℚ) × Option (List (List ℚ)) × Option (List (List ℚ)) ×
      Vectoriser :=
  let r1 := fit_transform TfidfVectorizer X_train
  let r2 := transformState r1.2 X_test
  let r3 := transformState r2.2 [example_text]
  (r1.1, r2.1, r3.1, r3.2)

/-- Claim C6: with a fitted vectoriser, transforming the same text twice
yields identical feature vectors — the first transform leaves the fitted
state untouched, so the second call sees the same state and both calls
return the same vector. -/
theorem transform_idempotent (f : FittedVectoriser) (t : String) :
    (transformState ⟨some f⟩ [t]).1 =
      (transformState (transformState ⟨some f⟩ [t]).2 [t]).1 ∧
    (transformState ⟨some f⟩ [t]).2 = ⟨some f⟩ ∧
    (transformState ⟨some f⟩ [t]).1 = some [transform f t] :=
  ⟨rfl, rfl, rfl⟩

/-- Claim C7: for a text holding a word absent from the fitted vocabulary,
transform does not fail (returns a vector), the vector has the fixed
length of the vocabulary, and the out-of-vocabulary word has no entry:
deleting all its occurrences from the token stream leaves the vector
unchanged. -/
theorem transform_oov_ignored (f : FittedVectoriser) (t w : String)
    (hw : w ∉ f.vocab) :
    (transformState ⟨some f⟩ [t]).1 = some [transform f t] ∧
    (transform f t).length = f.vocab.length ∧
    transformTokens f ((tokenize t).filter (fun x => x != w)) =
      transform f t := by
  refine ⟨rfl, by simp [transform, transformTokens], ?_⟩
  unfold transform transformTokens
  apply List.map_congr_left
  intro v hv
  have hvw : (v != w) = true := by
    simp only [bne_iff_ne, ne_eq]
    intro he
    exact hw (he ▸ hv)
  rw [List.count_filter (p := fun x => x != w) hvw]

theorem transform_oov_ignored_witness :
    (transformState ⟨some ⟨["good", "bad"], fun _ => 1⟩⟩ ["zebra good"]).1 =
      some [transform ⟨["good", "bad"], fun _ => 1⟩ "zebra good"] ∧
    (transform ⟨["good", "bad"], fun _ => 1⟩ "zebra good").length =
      (["good", "bad"] : List String).length ∧
    transformTokens ⟨["good", "bad"], fun _ => 1⟩
      ((tokenize "zebra good").filter (fun x => x != "zebra")) =
      transform ⟨["good", "bad"], fun _ => 1⟩ "zebra good" :=
  transform_oov_ignored ⟨["good", "bad"], fun _ => 1⟩ "zebra good" "zebra"
    (by decide)

/-- Claim C8: the vocabulary and idf weights are fitted exactly once, on
the training texts only — over the notebook's whole call sequence the
state holds exactly `fitVectoriser X_train`, transform never writes the
state (on any state and any texts), and the test-set and example
transforms are computed with the train-fitted vocabulary. -/
theorem vectoriser_fit_once (X_train X_test : List String) (ex : String) :
    (vectoriserSession X_train X_test ex).2.2.2 =
      ⟨some (fitVectoriser X_train)⟩ ∧
    (∀ (v : Vectoriser) (ts : List String), (transformState v ts).2 = v) ∧
    (vectoriserSession X_train X_test ex).2.1 =
      some (X_test.map (transform (fitVectoriser X_train))) ∧
    (vectoriserSession X_train X_test ex).2.2.1 =
      some [transform (fitVectoriser X_train) ex] := by
  refine ⟨rfl, ?_, rfl, rfl⟩
  intro v ts
  cases v with
  | mk o => cases o <;> rfl

/-- Claim C9: a missing directory (`listdir` raises, modelled `none`) and
an unreadable `".txt"` file both make the loader propagate the failure:
the result is `none`, never a record list — in particular never any
incomplete record list. -/
theorem loader_failure_propagates (ns : List String)
    (read : String → Option String) (lab : Nat) (n : String) (h1 : n ∈ ns)
    (h2 : endswith n ".txt" = true) (h3 : read n = none) :
    load_dataE none read lab = none ∧
    load_dataE (some ns) read lab = none ∧
    ∀ rs : List Record, load_dataE (some ns) read lab ≠ some rs := by
  have hmain : load_dataE (some ns) read lab = none := by
    unfold load_dataE
    exact readAll_none_of_mem (List.mem_filter.mpr ⟨h1, h2⟩) h3
  refine ⟨rfl, hmain, ?_⟩
  intro rs hsome
  rw [hmain] at hsome
  cases hsome

theorem loader_failure_propagates_witness :
    load_dataE none (fun _ => none) 1 = none ∧
    load_dataE (some ["a.txt"]) (fun _ => none) 1 = none ∧
    ∀ rs : List Record,
      load_dataE (some ["a.txt"]) (fun _ => none) 1 ≠ some rs :=
  loader_failure_propagates ["a.txt"] (fun _ => none) 1 "a.txt"
    (List.mem_singleton.mpr rfl) (by decide) rfl

/-- Claim C10: the loader's records follow `listdir` enumeration order —
the `i`-th record is built from the `i`-th text-suffixed entry and its
text is that file's entire contents; a directory with no `".txt"` file
yields the empty list (and, over the fallible filesystem, `some []`, not a
failure, whatever the reads would do). -/
theorem loader_order_text_and_empty (dir : List (String × String))
    (lab : Nat) (ns : List String) (read : String → Option String) :
    (∀ i : Nat, (load_data dir lab)[i]? =
      ((dir.filter (fun e => endswith e.1 ".txt"))[i]?).map
        (fun e => ({ text := e.2, label := lab } : Record))) ∧
    (dir.filter (fun e => endswith e.1 ".txt") = [] →
      load_data dir lab = []) ∧
    (ns.filter (fun m => endswith m ".txt") = [] →
      load_dataE (some ns) read lab = some []) := by
  refine ⟨?_, ?_, ?_⟩
  · intro i
    unfold load_data
    rw [List.getElem?_map]
  · intro h
    unfold load_data
    rw [h]
    rfl
  · intro h
    show readAll read lab (ns.filter (fun m => endswith m ".txt")) = some []
    rw [h]
    rfl

theorem loader_order_text_and_empty_witness :
    load_data [("x.bin", "z")] 7 = [] ∧
    load_dataE (some ["x.bin"]) (fun _ => none) 7 = some [] ∧
    (load_data [("b.txt", "first"), ("a.txt", "second")] 7)[1]? =
      some { text := "second", label := 7 } := by
  have h := loader_order_text_and_empty [("x.bin", "z")] 7 ["x.bin"]
    (fun _ => none)
  have h2 := loader_order_text_and_empty
    [("b.txt", "first"), ("a.txt", "second")] 7 [] (fun _ => none)
  refine ⟨h.2.1 (by decide), h.2.2 (by decide), ?_⟩
  rw [h2.1 1]
  decide

/-- `shuffle(pd.DataFrame(pos + neg))` (cell 7) reorders the records by a
permutation.  The call passes NO `random_state`, so the permutation is
drawn from the library's global random state: it is an input of each run,
not a function of any fixed seed. -/
def applyPerm (shuf : List Nat) (l : List Record) : List Record :=
  shuf.map (fun i => l.getD i { text := "", label := 0 })

/-- Size of the combined dataset `pos + neg` loaded from the two
directories. -/
def numRecords (posDir negDir : List (String × String)) : Nat :=
  (load_data posDir 1 ++ load_data negDir 0).length

/-- Componentwise sum of two feature vectors. -/
def addVec (a b : List ℚ) : List ℚ := List.zipWith (· + ·) a b

/-- The zero feature vector of dimension `d`. -/
def zeroVec (d : Nat) : List ℚ := List.replicate d 0

/-- Sum of a list of feature vectors of dimension `d`. -/
def sumVecs (d : Nat) (vs : List (List ℚ)) : List ℚ :=
  vs.foldl addVec (zeroVec d)

/-- Componentwise difference of two feature vectors. -/
def subVec (a b : List ℚ) : List ℚ := List.zipWith (· - ·) a b

/-- Modelled from the spec: `LogisticRegression().fit` (cell 15), library
code absent from the repository — "a parameter set (weights) learned from
(feature vector, label) pairs", "deterministic given fixed input and fixed
training data order".  The claims depend only on the fit being a
deterministic function of the vectorised training data, so the weights are
modelled as the difference of the class feature sums (a deterministic
linear decision boundary). -/
def fitModel (d : Nat) (xs : List (List ℚ)) (ys : List Nat) : List ℚ :=
  let pairs := xs.zip ys
  subVec (sumVecs d ((pairs.filter (fun p => p.2 == 1)).map Prod.fst))
    (sumVecs d ((pairs.filter (fun p => p.2 == 0)).map Prod.fst))

/-- The notebook's full pipeline (cells 6–15): load both directories,
shuffle the combined records (`shuf` is the permutation the unseeded
shuffle draws from the global random state), split with
`test_size=0.3, random_state=seed`, fit the vectoriser on the training
texts, vectorise them and fit the classifier.  Returns the partition
`(X_train, X_test, y_train, y_test)` and the trained model weights. -/
def pipeline (posDir negDir : List (String × String)) (shuf : List Nat)
    (seed : Nat) :
    (List String × List String × List Nat × List Nat) × List ℚ :=
  let records := applyPerm shuf (load_data posDir 1 ++ load_data negDir 0)
  let X := records.map Record.text
  let y := records.map Record.label
  let split := train_test_split X y seed
  let f := fitVectoriser split.1
  let m := fitModel f.vocab.length (split.1.map (transform f)) split.2.2.1
  (split, m)

/-- The spec's tiny round-trip corpus: two positive reviews. -/
def posDirEx : List (String × String) :=
  [("p1.txt", "good film"), ("p2.txt", "great film")]

/-- The spec's tiny round-trip corpus: two negative reviews. -/
def negDirEx : List (String × String) :=
  [("n1.txt", "bad film"), ("n2.txt", "awful film")]

theorem split_texts_append_perm (X : List String) (y : List Nat)
    (seed : Nat) :
    ((train_test_split X y seed).1 ++ (train_test_split X y seed).2.1).Perm
      X := by
  have heq : (train_test_split X y seed).1 ++
      (train_test_split X y seed).2.1 =
      ((splitIdx seed X.length).1 ++ (splitIdx seed X.length).2).map
        (fun i => X.getD i "") := by
    simp [train_test_split]
  rw [heq]
  exact perm_map_getD_range (splitIdx_perm seed X.length) ""

theorem applyPerm_perm {shuf : List Nat} {l : List Record}
    (h : shuf.Perm (List.range l.length)) : (applyPerm shuf l).Perm l :=
  perm_map_getD_range h { text := "", label := 0 }

/-- Claim C1 fails on the code: the shuffle of cell 7 passes no
`random_state`, so two runs over the same corpus on disk and the same
split seed can draw different shuffle permutations and then produce
different train/test partitions.  Witnessed on the spec's own round-trip
corpus (2 positive + 2 negative reviews) with seed 42: the identity draw
and the draw swapping the first two records are both genuine permutations
of the four records, yet the pipeline outputs differ. -/
theorem pipeline_not_seed_deterministic :
    ([0, 1, 2, 3] : List Nat).Perm
      (List.range (numRecords posDirEx negDirEx)) ∧
    ([1, 0, 2, 3] : List Nat).Perm
      (List.range (numRecords posDirEx negDirEx)) ∧
    pipeline posDirEx negDirEx [0, 1, 2, 3] 42 ≠
      pipeline posDirEx negDirEx [1, 0, 2, 3] 42 := by
  refine ⟨by decide, by decide, fun h => ?_⟩
  have h1 := congrArg Prod.fst h
  exact absurd h1 (by decide)

/-- Claim C1 (amended): the pipeline is deterministic once the corpus, the
seed AND the permutation drawn by the unseeded shuffle are fixed — two
runs drawing the same permutation agree exactly; and whatever two valid
draws two runs make, they still process the same multiset of texts: train
and test together are a permutation of the same loaded corpus in both
runs. -/
theorem pipeline_deterministic_given_shuffle_draw
    (posDir negDir : List (String × String)) (seed : Nat)
    (shuf1 shuf2 : List Nat)
    (h1 : shuf1.Perm (List.range (numRecords posDir negDir)))
    (h2 : shuf2.Perm (List.range (numRecords posDir negDir))) :
    (shuf1 = shuf2 →
      pipeline posDir negDir shuf1 seed =
        pipeline posDir negDir shuf2 seed) ∧
    ((pipeline posDir negDir shuf1 seed).1.1 ++
      (pipeline posDir negDir shuf1 seed).1.2.1).Perm
      ((pipeline posDir negDir shuf2 seed).1.1 ++
        (pipeline posDir negDir shuf2 seed).1.2.1) := by
  constructor
  · intro heq
    rw [heq]
  · have key : ∀ (shuf : List Nat),
        shuf.Perm (List.range (numRecords posDir negDir)) →
        ((pipeline posDir negDir shuf seed).1.1 ++
          (pipeline posDir negDir shuf seed).1.2.1).Perm
          ((load_data posDir 1 ++ load_data negDir 0).map Record.text) := by
      intro shuf hs
      have hsplit : (pipeline posDir negDir shuf seed).1 =
          train_test_split
            ((applyPerm shuf (load_data posDir 1 ++
              load_data negDir 0)).map Record.text)
            ((applyPerm shuf (load_data posDir 1 ++
              load_data negDir 0)).map Record.label) seed := by
        simp [pipeline]
      rw [hsplit]
      refine (split_texts_append_perm _ _ seed).trans ?_
      exact (applyPerm_perm hs).map Record.text
    exact (key shuf1 h1).trans (key shuf2 h2).symm

theorem pipeline_deterministic_given_shuffle_draw_witness :
    (([0, 1, 2, 3] : List Nat) = [1, 0, 2, 3] →
      pipeline posDirEx negDirEx [0, 1, 2, 3] 42 =
        pipeline posDirEx negDirEx [1, 0, 2, 3] 42) ∧
    ((pipeline posDirEx negDirEx [0, 1, 2, 3] 42).1.1 ++
      (pipeline posDirEx negDirEx [0, 1, 2, 3] 42).1.2.1).Perm
      ((pipeline posDirEx negDirEx [1, 0, 2, 3] 42).1.1 ++
        (pipeline posDirEx negDirEx [1, 0, 2, 3] 42).1.2.1) :=
  pipeline_deterministic_given_shuffle_draw posDirEx negDirEx 42
    [0, 1, 2, 3] [1, 0, 2, 3] (by decide) (by decide)
